import Mathlib

/-!
Verification of the ASN.1-to-protobuf lowering and emission core
(`libasn1print/asn1printproto.c`, `libasn1print/asn1protooutput.c`).

The C sources are shallowly embedded: each C function that the claims
touch is translated into an executable Lean definition operating on
`List Char` / `String` and on inductive models of the ASN.1 AST nodes
and of the intermediate proto model.  Output produced through
`safe_printf`/`safe_fwrite` is modelled as returned strings; C `assert`
failures and undefined behaviour (out-of-bounds reads, null
dereferences) are modelled by `Option`, with `none` standing for an
aborted computation.
-/

namespace Asn1Proto

/-! ## Name rewriting (`asn1protooutput.c`)

`toPascalCaseDup` and `toSnakeCaseDup` walk the C string once, writing
into a growing buffer; every iteration appends zero, one or two
characters at the current write position, so the result is the
concatenation of the per-character emissions.  The boolean arguments
carry the C loop state: `isFirst` is `i == 0`, and the second flag is
`lastWasUpper` (Pascal) resp. `lastChanged` (snake).
-/

/-- Embedding of the loop of `toPascalCaseDup` (asn1protooutput.c:87-115).
On a separator (`-`, `&`, `_`) the C code emits `toupper` of the
following character and skips it; a separator in final position writes
the source's NUL terminator into the buffer, truncating the result,
which is modelled by stopping. -/
def pascalGo : List Char → Bool → Bool → List Char
  | [], _, _ => []
  | c :: cs, isFirst, lastWasUpper =>
    if c = '-' ∨ c = '&' ∨ c = '_' then
      match cs with
      | [] => []
      | c2 :: cs2 => c2.toUpper :: pascalGo cs2 false true
    else if isFirst then
      c.toUpper :: pascalGo cs false true
    else if 'A' ≤ c ∧ c ≤ 'Z' ∧ lastWasUpper then
      c.toLower :: pascalGo cs false lastWasUpper
    else if 'A' ≤ c ∧ c ≤ 'Z' then
      c :: pascalGo cs false true
    else
      c :: pascalGo cs false false

/-- `toPascalCaseDup` (asn1protooutput.c:87-115). -/
def toPascalCaseDup (s : String) : String :=
  ⟨pascalGo s.data true false⟩

/-- `snake_case_e` (asn1protooutput.c:34-37). -/
inductive snake_case_e where
  | SNAKECASE_LOWER
  | SNAKECASE_UPPER
deriving DecidableEq, Repr

export snake_case_e (SNAKECASE_LOWER SNAKECASE_UPPER)

/-- Embedding of the loop of `toSnakeCaseDup` (asn1protooutput.c:119-160).
The branches appear in the source's order; an `&` in first position is
dropped (the C code sets `added = -1`, shifting every later write one
slot left). -/
def snakeGo (tocase : snake_case_e) : List Char → Bool → Bool → List Char
  | [], _, _ => []
  | c :: cs, isFirst, lastChanged =>
    if isFirst ∧ c = '&' then
      snakeGo tocase cs false true
    else if tocase = SNAKECASE_LOWER ∧ ¬isFirst ∧ ('A' ≤ c ∧ c ≤ 'Z') ∧ ¬lastChanged then
      '_' :: c.toLower :: snakeGo tocase cs false true
    else if tocase = SNAKECASE_UPPER ∧ ('a' ≤ c ∧ c ≤ 'z') then
      c.toUpper :: snakeGo tocase cs false true
    else if tocase = SNAKECASE_UPPER ∧ ¬isFirst ∧ ('A' ≤ c ∧ c ≤ 'Z') then
      '_' :: c.toUpper :: snakeGo tocase cs false true
    else if tocase = SNAKECASE_LOWER ∧ ('A' ≤ c ∧ c ≤ 'Z') then
      c.toLower :: snakeGo tocase cs false true
    else if c = '-' ∨ c = '.' then
      '_' :: snakeGo tocase cs false true
    else
      c :: snakeGo tocase cs false false

/-- `toSnakeCaseDup` (asn1protooutput.c:119-160). -/
def toSnakeCaseDup (s : String) (tocase : snake_case_e) : String :=
  ⟨snakeGo tocase s.data true false⟩

example : toPascalCaseDup "e2AP-PDU" = "E2ApPdu" := by decide
example : toSnakeCaseDup "e2AP-PDU" SNAKECASE_LOWER = "e2_ap_pdu" := by decide
example : toSnakeCaseDup "e2AP-PDU" SNAKECASE_UPPER = "E2_A_P__P_D_U" := by decide
example : toSnakeCaseDup "&&x" SNAKECASE_LOWER = "&x" := by decide
example : toSnakeCaseDup "&x" SNAKECASE_LOWER = "x" := by decide

/-! ## Flags

The `asn1print_flags` / `asn1print_flags2` bit masks are declared in
headers outside the translated sources; the code under `src/` tests
three of their bits (`APF_STRING_VALUE`, `APF_INT32_VALUE` — the source
comments `flags & 0x100` as `APF_INT32_VALUE` — and `APF_NOINDENT2`).
They are modelled as a record of booleans. -/
structure apflags where
  string_value : Bool := false
  int32_value : Bool := false
  noindent2 : Bool := false
deriving DecidableEq, Repr

/-! ## ASN.1 value nodes and `proto_value_print` (`asn1printproto.c`) -/

/-- `asn1p_value_t` as consumed by `proto_value_print`
(asn1printproto.c:653-783).  Payloads carry exactly the union fields the
function reads.  `ATV_TYPE`'s carried type node is consumed only by the
external ASN.1 printer and has no payload here; `ATV_REAL`'s payload is
a `Float` (its `%f` rendering is not modelled bit-exactly; no claim
depends on it).  `ATV_TUPLE`/`ATV_QUADRUPLE`/`ATV_BITVECTOR` payloads
are the non-negative integers/bytes the AST stores there. -/
inductive asn1p_value where
  | ATV_NOVALUE
  | ATV_TYPE
  | ATV_NULL
  | ATV_REAL (v_double : Float)
  | ATV_INTEGER (v_integer : Int)
  | ATV_MIN
  | ATV_MAX
  | ATV_FALSE
  | ATV_TRUE
  | ATV_TUPLE (v_integer : Nat)
  | ATV_QUADRUPLE (v_integer : Nat)
  | ATV_STRING (buf : String)
  | ATV_UNPARSED (buf : String)
  | ATV_BITVECTOR (bits : List Nat) (size_in_bits : Nat)
  | ATV_REFERENCED (components : List String)
  | ATV_VALUESET
  | ATV_CHOICE_IDENTIFIER (identifier : String) (value : Option asn1p_value)

/-- Modelled from the spec: the numeric tag values of the value-kind
enumeration live in `asn1parser.h`, which is not under `src/`.  A C
enumeration numbers its members from 0 in listing order, and both the
spec's kind list (§4.1) and the source's `switch` begin with `NOVALUE`;
only the fact that `ATV_NOVALUE` has tag 0 (and every other kind a
non-zero tag) is relied upon. -/
def atv_tag : asn1p_value → Nat
  | .ATV_NOVALUE => 0
  | .ATV_TYPE => 1
  | .ATV_NULL => 2
  | .ATV_REAL _ => 3
  | .ATV_INTEGER _ => 4
  | .ATV_MIN => 5
  | .ATV_MAX => 6
  | .ATV_FALSE => 7
  | .ATV_TRUE => 8
  | .ATV_TUPLE _ => 9
  | .ATV_QUADRUPLE _ => 10
  | .ATV_STRING _ => 11
  | .ATV_UNPARSED _ => 12
  | .ATV_BITVECTOR _ _ => 13
  | .ATV_REFERENCED _ => 14
  | .ATV_VALUESET => 15
  | .ATV_CHOICE_IDENTIFIER _ _ => 16

/-- The quote-masking loop of the `ATV_STRING` case
(asn1printproto.c:713-722): every character is copied and a `"` is
emitted twice. -/
def maskQuotes : List Char → List Char
  | [] => []
  | c :: cs => if c = '"' then c :: c :: maskQuotes cs else c :: maskQuotes cs

/-- `hextable` of the `ATV_BITVECTOR` case (asn1printproto.c:752). -/
def hextable : List Char := "0123456789ABCDEF".data

/-- Binary rendering of a bit vector whose size is not a multiple of 8
(asn1printproto.c:743-750). -/
def bitvector_binary (bits : List Nat) (nbits : Nat) : List Char :=
  (List.range nbits).map (fun i =>
    if ((bits.getD (i >>> 3) 0) >>> (7 - i % 8)) &&& 1 = 1 then '1' else '0')

/-- Hex rendering of a byte-aligned bit vector (asn1printproto.c:751-759). -/
def bitvector_hex (bits : List Nat) (nbytes : Nat) : List Char :=
  ((List.range nbytes).map (fun i =>
    [hextable.getD ((bits.getD i 0) >>> 4) '0',
     hextable.getD ((bits.getD i 0) &&& 15) '0'])).flatten

/-- The `ATV_REFERENCED` loop (asn1printproto.c:763-767): component
names joined by dots. -/
def dotJoin : List String → String
  | [] => ""
  | c :: cs => cs.foldl (fun acc n => acc ++ "." ++ n) c

/-- The code that runs after the `switch` of `proto_value_print` for
the cases that `break` instead of returning (asn1printproto.c:780):
`assert(val->type || !"Unknown")` passes exactly when the numeric tag
is non-zero; a failed assert aborts (`none`). -/
def vp_assert_tail (v : asn1p_value) (result : String) : Option String :=
  if atv_tag v ≠ 0 then some result else none

/-- `%f` formatting of `ATV_REAL` (asn1printproto.c:669).  The C fixed
six-decimal rendering is represented by `Float.toString`; no claim
depends on its exact text. -/
def c_format_f (x : Float) : String := toString x

/-- The `switch` body of `proto_value_print` (asn1printproto.c:662-782),
for a non-`NULL` value node.  `none` as a result models an aborted run
(failed `assert`).  The `ATV_CHOICE_IDENTIFIER` case recursively prints
the carried value pointer exactly as `proto_value_print` itself would
(a `NULL` pointer prints as the empty string). -/
def proto_value_print_v : asn1p_value → apflags → Option String
  | .ATV_NOVALUE, _ => vp_assert_tail .ATV_NOVALUE ""
  | .ATV_NULL, _ => some "NULL"
  | .ATV_REAL x, _ => some (c_format_f x)
  | .ATV_TYPE, _ => some "ERROR not yet implemented"
  | .ATV_INTEGER n, _ => some (toString n)
  | .ATV_MIN, _ => some "0"
  | .ATV_MAX, flags => if flags.int32_value then some (toString (2147483647 : Int)) else some ""
  | .ATV_FALSE, _ => some "FALSE"
  | .ATV_TRUE, _ => some "TRUE"
  | .ATV_TUPLE n, _ =>
      some ("\x7b" ++ toString (n >>> 4) ++ ", " ++ toString (n &&& 15) ++ "\x7d")
  | .ATV_QUADRUPLE n, _ =>
      some ("\x7b" ++ toString ((n >>> 24) &&& 255) ++ ", " ++ toString ((n >>> 16) &&& 255)
        ++ ", " ++ toString ((n >>> 8) &&& 255) ++ ", " ++ toString (n &&& 255) ++ "\x7d")
  | .ATV_STRING s, _ =>
      some ("\"" ++ (if s.data.contains '"'
          then (⟨maskQuotes s.data⟩ : String)
          else (match s.data with
                | [] => ("" : String)
                | c :: _ => String.singleton c)) ++ "\"")
  | .ATV_UNPARSED s, _ => some s
  | .ATV_BITVECTOR bytes nbits, _ =>
      if nbits % 8 ≠ 0 then
        some ("\x27" ++ (⟨bitvector_binary bytes nbits⟩ : String) ++ "\x27B")
      else
        some ("\x27" ++ (⟨bitvector_hex bytes (nbits >>> 3)⟩ : String) ++ "\x27H")
  | .ATV_REFERENCED comps, _ => vp_assert_tail (.ATV_REFERENCED comps) (dotJoin comps)
  | .ATV_VALUESET, _ => some ""
  | .ATV_CHOICE_IDENTIFIER id none, _ => some (id ++ "")
  | .ATV_CHOICE_IDENTIFIER id (some v2), flags =>
      match proto_value_print_v v2 flags with
      | none => none
      | some s1 => some (id ++ s1)

/-- `proto_value_print` (asn1printproto.c:653-783).  A `NULL` argument
yields the freshly zeroed buffer, i.e. the empty string. -/
def proto_value_print : Option asn1p_value → apflags → Option String
  | none, _ => some ""
  | some v, flags => proto_value_print_v v flags

example : proto_value_print (some .ATV_NOVALUE) {} = none := rfl
example : proto_value_print (some (.ATV_STRING "abc")) {} = some "\"a\"" := rfl
example : proto_value_print (some (.ATV_STRING "a\"b")) {} = some "\"a\"\"b\"" := rfl
example : proto_value_print (some (.ATV_INTEGER (-7))) {} = some "-7" := rfl
example : proto_value_print (some .ATV_MAX) { int32_value := true } = some "2147483647" := rfl

/-! ## Constraint trees and `proto_constraint_print` (`asn1printproto.c`)

`proto_constraint_print` builds and returns a string, but three cases
additionally write to the output sink: `ACT_CT_CTDBY` through
`safe_fwrite`, and `ACT_CT_CTNG`/`ACT_CT_PATTERN` through the
out-of-scope ASN.1 printers `asn1print_expr`/`asn1print_value`.  The
embedding therefore returns a pair: the built string (`none` when the
run aborts on a failed `assert` or on the out-of-bounds
separator-table read of `ACT_CA_SET`), and the bytes written to the
sink up to that point.  The text the two external printers would emit
is abstracted as the parameters `extExprOut` and `extValueOut`. -/

/-- The constraint-node kinds of `asn1p_constraint_type_e` handled by
the printer's `switch` (asn1printproto.c:422-596). -/
inductive act_type where
  | ACT_INVALID
  | ACT_EL_TYPE
  | ACT_EL_VALUE
  | ACT_EL_RANGE
  | ACT_EL_LLRANGE
  | ACT_EL_RLRANGE
  | ACT_EL_ULRANGE
  | ACT_EL_EXT
  | ACT_CT_SIZE
  | ACT_CT_FROM
  | ACT_CT_WCOMP
  | ACT_CT_WCOMPS
  | ACT_CT_CTDBY
  | ACT_CT_CTNG
  | ACT_CT_PATTERN
  | ACT_CA_SET
  | ACT_CA_CRC
  | ACT_CA_CSV
  | ACT_CA_UNI
  | ACT_CA_INT
  | ACT_CA_EXC
  | ACT_CA_AEX
deriving DecidableEq, Repr

/-- `asn1p_constraint_t` with the fields the printer reads:
kind, `value`, `containedSubtype`, `range_start`, `range_stop`,
`presence` is read only in the (no-op) `ACT_CT_WCOMPS` inner switch and
is omitted, and the `elements` array. -/
inductive asn1p_constraint where
  | mk (ctype : act_type) (value : Option asn1p_value)
       (containedSubtype : Option asn1p_value)
       (range_start : Option asn1p_value) (range_stop : Option asn1p_value)
       (elements : List asn1p_constraint)

/-- The local `symtable` of the algebraic cases
(asn1printproto.c:571-572). -/
def symtable : List String := [" EXCEPT ", " ^ ", ",", "", "("]

/-- The `symno` value produced by the fall-through `symno++` chain
(asn1printproto.c:564-569): entering at `ACT_CA_SET` increments five
times, at `ACT_CA_CRC` four, and so on down to `ACT_CA_EXC` with zero.
Note that `ACT_CA_SET`'s value, 5, is out of bounds for `symtable`. -/
def ca_symno : act_type → Nat
  | .ACT_CA_SET => 5
  | .ACT_CA_CRC => 4
  | .ACT_CA_CSV => 3
  | .ACT_CA_UNI => 2
  | .ACT_CA_INT => 1
  | _ => 0

/-- The rule-name prefix emitted before `range_start`
(asn1printproto.c:450-468). -/
def range_start_label (t : act_type) (flags : apflags) : String :=
  if t = .ACT_EL_RANGE ∨ t = .ACT_EL_RLRANGE then
    (if flags.string_value then "min_len: " else "gte: ")
  else
    (if flags.string_value then "min_len: " else "gt: ")

/-- The rule-name prefix emitted before `range_stop`
(asn1printproto.c:480-498). -/
def range_stop_label (t : act_type) (flags : apflags) : String :=
  if t = .ACT_EL_RANGE ∨ t = .ACT_EL_LLRANGE then
    (if flags.string_value then "max_len: " else "lte: ")
  else
    (if flags.string_value then "max_len: " else "lt: ")

mutual

/-- `proto_constraint_print` (asn1printproto.c:412-607). -/
def proto_constraint_print (ct : asn1p_constraint) (flags : apflags)
    (extExprOut extValueOut : String) : Option String × String :=
  match ct with
  | .mk t value containedSubtype range_start range_stop elements =>
    match t with
    | .ACT_EL_TYPE =>
      match proto_value_print containedSubtype flags with
      | none => (none, "")
      | some v => cp_subconstraints v elements flags extExprOut extValueOut
    | .ACT_EL_VALUE =>
      match proto_value_print value flags with
      | none => (none, "")
      | some v =>
        if flags.string_value then
          (some ("min_len: " ++ v ++ ", max_len: " ++ v), "")
        else
          cp_subconstraints v elements flags extExprOut extValueOut
    | .ACT_EL_RANGE | .ACT_EL_LLRANGE | .ACT_EL_RLRANGE | .ACT_EL_ULRANGE =>
      match proto_value_print range_start flags with
      | none => (none, "")
      | some v1 =>
        match proto_value_print range_stop flags with
        | none => (none, "")
        | some v2 =>
          if v2 = "" then (some (range_start_label t flags ++ v1), "")
          else (some (range_start_label t flags ++ v1 ++ ", "
                      ++ range_stop_label t flags ++ v2), "")
    | .ACT_EL_EXT => (some "", "")
    | .ACT_CT_SIZE | .ACT_CT_FROM =>
      -- assert(el_count != 0); assert(el_count == 1)
      match elements with
      | [e] =>
        (match proto_constraint_print e flags extExprOut extValueOut with
         | (none, w) => (none, w)
         | (some s, w) => (some ((if t = .ACT_CT_FROM then "FROM" else "") ++ s), w))
      | _ => (none, "")
    | .ACT_CT_WCOMP =>
      -- assert(el_count != 0); assert(el_count == 1); then the subconstraint tail
      match elements with
      | [_] => cp_subconstraints "WITH COMPONENT" elements flags extExprOut extValueOut
      | _ => (none, "")
    | .ACT_CT_WCOMPS =>
      match cp_wcomps_loop elements true flags extExprOut extValueOut with
      | (none, w) => (none, w)
      | (some s, w) => (some ("WITH COMPONENTS \x7b " ++ s ++ " \x7d"), w)
    | .ACT_CT_CTDBY =>
      -- "CONSTRAINED BY " into the result; assert(value->type == ATV_UNPARSED);
      -- the unparsed bytes go to the sink via safe_fwrite
      match value with
      | some (.ATV_UNPARSED buf) => (some "CONSTRAINED BY ", buf)
      | _ => (none, "")
    | .ACT_CT_CTNG =>
      -- "CONTAINING " into the result; the carried type is printed to the
      -- sink by the external asn1print_expr (reading v_type of a non-type
      -- or NULL value is undefined)
      match value with
      | some .ATV_TYPE => (some "CONTAINING ", extExprOut)
      | _ => (none, "")
    | .ACT_CT_PATTERN => (some "PATTERN ", extValueOut)
    | .ACT_CA_SET | .ACT_CA_CRC | .ACT_CA_CSV | .ACT_CA_UNI | .ACT_CA_INT | .ACT_CA_EXC =>
      ca_loop t elements true flags extExprOut extValueOut
    | .ACT_CA_AEX =>
      -- assert(el_count == 1)
      match elements with
      | [_] => cp_subconstraints "ALL EXCEPT" elements flags extExprOut extValueOut
      | _ => (none, "")
    | .ACT_INVALID => (none, "")

/-- The `perhaps_subconstraints` tail (asn1printproto.c:598-604): with
elements present, append a space and the single recursively printed
subconstraint; two or more elements fail the `assert`. -/
def cp_subconstraints (acc : String) (elements : List asn1p_constraint)
    (flags : apflags) (extExprOut extValueOut : String) : Option String × String :=
  match elements with
  | [] => (some acc, "")
  | [e] =>
    (match proto_constraint_print e flags extExprOut extValueOut with
     | (none, w) => (none, w)
     | (some s, w) => (some (acc ++ " " ++ s), w))
  | _ => (none, "")

/-- The `ACT_CT_WCOMPS` element loop (asn1printproto.c:526-544):
children joined by `", "`; the inner `presence` switch emits nothing. -/
def cp_wcomps_loop (elements : List asn1p_constraint) (first : Bool)
    (flags : apflags) (extExprOut extValueOut : String) : Option String × String :=
  match elements with
  | [] => (some "", "")
  | e :: rest =>
    match proto_constraint_print e flags extExprOut extValueOut with
    | (none, w) => (none, w)
    | (some s, w) =>
      match cp_wcomps_loop rest false flags extExprOut extValueOut with
      | (none, w2) => (none, w ++ w2)
      | (some s2, w2) => (some ((if first then "" else ", ") ++ s ++ s2), w ++ w2)

/-- The algebraic-constraint element loop (asn1printproto.c:570-586):
before each non-first child the separator `symtable[symno]` is
appended (out of bounds for `ACT_CA_SET`, modelled as an abort);
`ACT_CA_CRC` children are wrapped in braces; `ACT_CA_SET` appends
`"} "` after every child but the last. -/
def ca_loop (t : act_type) (elements : List asn1p_constraint) (first : Bool)
    (flags : apflags) (extExprOut extValueOut : String) : Option String × String :=
  match elements with
  | [] => (some "", "")
  | e :: rest =>
    match (if first then some "" else symtable.get? (ca_symno t)) with
    | none => (none, "")
    | some sep =>
      match proto_constraint_print e flags extExprOut extValueOut with
      | (none, w) => (none, w)
      | (some s, w) =>
        match ca_loop t rest false flags extExprOut extValueOut with
        | (none, w2) => (none, w ++ w2)
        | (some s2, w2) =>
          (some (sep ++ (if t = .ACT_CA_CRC then "\x7b" else "")
                 ++ s ++ (if t = .ACT_CA_CRC then "\x7d" else "")
                 ++ (if t = .ACT_CA_SET ∧ rest.isEmpty = false then "\x7d " else "")
                 ++ s2), w ++ w2)

end

/-! ## Proto model and emitter (`asn1protooutput.c`)

The emitter walks the proto model and prints through `safe_printf`; its
output is modelled as the returned string (both sink modes produce the
same bytes).  Literal braces of the emitted proto text are written
`\x7b`/`\x7d` in the string literals below. -/

/-- `proto_msg_def_s` fields read by the emitter. -/
structure proto_msg_def where
  name : String := ""
  type : String := ""
  rules : String := ""
  comments : String := ""
  repeated : Bool := false
deriving Inhabited, DecidableEq, Repr

/-- `proto_msg_oneof_s` fields read by the emitter. -/
structure proto_msg_oneof where
  name : String := ""
  comments : String := ""
  entry : List proto_msg_def := []
deriving Inhabited, DecidableEq, Repr

/-- `proto_msg_s` fields read by the emitter. -/
structure proto_msg where
  name : String := ""
  comments : String := ""
  entry : List proto_msg_def := []
  oneof : List proto_msg_oneof := []
deriving Inhabited, Repr

/-- `proto_enum_def_s`: an entry name and its explicit index, `-1` when
the lowering found no explicit non-negative value. -/
structure proto_enum_def where
  name : String := ""
  index : Int := -1
deriving Inhabited, DecidableEq, Repr

/-- `proto_enum_s` fields read by the emitter. -/
structure proto_enum where
  name : String := ""
  comments : String := ""
  defs : List proto_enum_def := []
deriving Inhabited, Repr

/-- Concatenation of a list of strings (the successive `safe_printf`
writes of a loop). -/
def strJoin : List String → String
  | [] => ""
  | s :: rest => s ++ strJoin rest

/-- The `INDENT` macro (asn1protooutput.c:39-45): unless
`APF_NOINDENT2` is set, four spaces per indentation level. -/
def indentStr (flags : apflags) (level : Nat) : String :=
  if flags.noindent2 then "" else strJoin (List.replicate level "    ")

/-- Modelled from the spec: `PROTOSCALARTYPES` is a macro defined in a
header that is not under `src/`; the spec (§4.6) describes it as the
fixed list of known proto scalar type names — `int32`, `float`,
`bool`, `string` and the rest of the proto3 scalar set. -/
def PROTOSCALARTYPES : String :=
  "double float int32 int64 uint32 uint64 sint32 sint64 fixed32 fixed64 sfixed32 sfixed64 bool string bytes"

/-- Auxiliary for `strstr`: does `hay` begin with `needle`? -/
def listStartsWith : List Char → List Char → Bool
  | [], _ => true
  | _ :: _, [] => false
  | a :: as, b :: bs => a = b && listStartsWith as bs

/-- `strstr(hay, needle) != NULL`: `needle` occurs in `hay`. -/
def strstr_found (hay needle : List Char) : Bool :=
  match hay with
  | [] => needle.isEmpty
  | _ :: tl => listStartsWith needle hay || strstr_found tl needle

/-- The body of one iteration of the `print_entries` loop
(asn1protooutput.c:206-234), rendering entry `d` with field number
`num`; the loop passes `i + 1` for the `i`-th entry. -/
def print_entry (d : proto_msg_def) (num : Nat) (flags : apflags) (level : Nat) : String :=
  indentStr flags level
  ++ (if d.repeated then "repeated " else "")
  ++ (if strstr_found PROTOSCALARTYPES.data d.type.data then d.type else toPascalCaseDup d.type)
  ++ " " ++ toSnakeCaseDup d.name SNAKECASE_LOWER ++ " = " ++ toString num
  ++ (if d.rules ≠ "" then " [(validate.v1.rules)." ++ d.rules ++ "]" else "")
  ++ (if d.comments ≠ "" then "; // " ++ d.comments ++ "\n" else ";\n")

/-- The `print_entries` loop (asn1protooutput.c:204-235) as the list of
lines it emits, starting from loop counter `i`: entry `d` at counter
`i` is emitted with field number `i + 1`. -/
def print_entries_go : List proto_msg_def → Nat → apflags → Nat → List String
  | [], _, _, _ => []
  | d :: ds, i, flags, level =>
    print_entry d (i+1) flags level :: print_entries_go ds (i+1) flags level

/-- `print_entries` (asn1protooutput.c:204-235): the concatenation of
the per-entry lines, with the loop counter starting at 0. -/
def print_entries (entry : List proto_msg_def) (flags : apflags) (level : Nat) : String :=
  strJoin (print_entries_go entry 0 flags level)

/-- `proto_print_comments` (asn1protooutput.c:170-180): the comment
block split on newlines by `strtok_r` (which skips empty tokens), each
token emitted as `// <token>\n`. -/
def proto_print_comments (comments : String) : String :=
  strJoin (((comments.split (· = '\n')).filter (· ≠ "")).map (fun t => "// " ++ t ++ "\n"))

/-- `proto_print_single_oneof` (asn1protooutput.c:237-251): the oneof
header and its entries printed by a fresh `print_entries` call (whose
loop counter restarts at 0). -/
def proto_print_single_oneof (o : proto_msg_oneof) (flags : apflags) (level : Nat) : String :=
  indentStr flags level
  ++ (if o.comments ≠ "" then proto_print_comments o.comments else "")
  ++ indentStr flags level
  ++ "oneof " ++ toSnakeCaseDup o.name SNAKECASE_LOWER ++ " \x7b\n"
  ++ print_entries o.entry flags (level+1)
  ++ indentStr flags level ++ "\x7d\n"

/-- `proto_print_single_msg` (asn1protooutput.c:253-271): comments,
header, direct fields via `print_entries`, then each oneof via
`proto_print_single_oneof`, all at `level + 1`. -/
def proto_print_single_msg (m : proto_msg) (flags : apflags) (level : Nat) : String :=
  (if m.comments ≠ "" then proto_print_comments m.comments else "")
  ++ "message " ++ toPascalCaseDup m.name ++ " \x7b\n"
  ++ print_entries m.entry flags (level+1)
  ++ strJoin (m.oneof.map (fun o => proto_print_single_oneof o flags (level+1)))
  ++ indentStr flags level ++ "\x7d;\n\n"

/-- The zero-scan of `proto_print_single_enum`
(asn1protooutput.c:286-292): is there an entry with explicit index 0? -/
def hasEnumZero (defs : List proto_enum_def) : Bool :=
  defs.any (fun d => d.index = 0)

/-- The definition loop of `proto_print_single_enum`
(asn1protooutput.c:297-307): each emitted line paired with the numeric
value it prints — the entry's explicit index when non-negative,
otherwise the running counter `ctr`, which then increments. -/
def enum_def_lines (enumNameUc : String) :
    List proto_enum_def → Nat → apflags → Nat → List (String × Int)
  | [], _, _, _ => []
  | d :: ds, ctr, flags, level =>
    if d.index < 0 then
      (indentStr flags level ++ enumNameUc ++ "_" ++ toSnakeCaseDup d.name SNAKECASE_UPPER
         ++ " = " ++ toString (ctr : Int) ++ ";\n", (ctr : Int))
        :: enum_def_lines enumNameUc ds (ctr+1) flags level
    else
      (indentStr flags level ++ enumNameUc ++ "_" ++ toSnakeCaseDup d.name SNAKECASE_UPPER
         ++ " = " ++ toString d.index ++ ";\n", d.index)
        :: enum_def_lines enumNameUc ds ctr flags level

/-- The entry lines of `proto_print_single_enum` with their numeric
values: the auto-generated `<ENUM>_UNDEFINED = 0` line comes first when
no definition carries explicit index 0, then the definition lines with
the running counter starting at 0. -/
def enumEmittedPairs (e : proto_enum) (flags : apflags) (level : Nat) : List (String × Int) :=
  (if hasEnumZero e.defs then []
   else [(indentStr flags (level+1) ++ toSnakeCaseDup e.name SNAKECASE_UPPER
          ++ "_UNDEFINED = 0; // auto generated\n", 0)])
  ++ enum_def_lines (toSnakeCaseDup e.name SNAKECASE_UPPER) e.defs 0 flags (level+1)

/-- `proto_print_single_enum` (asn1protooutput.c:273-311). -/
def proto_print_single_enum (e : proto_enum) (flags : apflags) (level : Nat) : String :=
  (if e.comments ≠ "" then proto_print_comments e.comments else "")
  ++ "enum " ++ toPascalCaseDup e.name ++ " \x7b\n"
  ++ strJoin ((enumEmittedPairs e flags level).map (·.1))
  ++ "\x7d;\n\n"

/-- The values of the definition loop alone (the `.2` projections of
`enum_def_lines`). -/
def enum_def_values : List proto_enum_def → Nat → List Int
  | [], _ => []
  | d :: ds, ctr =>
    if d.index < 0 then (ctr : Int) :: enum_def_values ds (ctr+1)
    else d.index :: enum_def_values ds ctr

/-- The numeric values emitted for an enum with definition list `defs`
(the auto-generated zero entry included when inserted). -/
def enumEmittedValues (defs : List proto_enum_def) : List Int :=
  (if hasEnumZero defs then [] else [0]) ++ enum_def_values defs 0

/-! ## Top-level lowering dispatch (`asn1printproto.c`) -/

/-- Meta types (`asn1p_expr_meta_e`), per the spec's data model. -/
inductive asn1p_metatype where
  | AMT_TYPE
  | AMT_VALUE
  | AMT_VALUESET
  | AMT_TYPEREF
  | AMT_OBJECTCLASS
deriving DecidableEq, Repr

/-- Expression-type tags distinguished by the dispatch of
`asn1print_expr_proto`; `ASN_OTHER` stands for every further tag of
the parser's enumeration, which the dispatch treats alike. -/
inductive asn1p_exprtype where
  | ASN_BASIC_ENUMERATED
  | ASN_BASIC_INTEGER
  | ASN_BASIC_BOOLEAN
  | ASN_STRING_IA5String
  | ASN_STRING_BMPString
  | ASN_CONSTR_SEQUENCE
  | ASN_CONSTR_SEQUENCE_OF
  | ASN_CONSTR_CHOICE
  | A1TC_REFERENCE
  | A1TC_CLASSDEF
  | A1TC_UNIVERVAL
  | A1TC_EXTENSIBLE
  | ASN_OTHER
deriving DecidableEq, Repr

/-- `asn1p_expr_t` as consumed by the return-value skeleton of
`asn1print_expr_proto`: identifier, meta type, expression type, the
value node, and the specialization clones
(`specializations.pspec[i].my_clone`). -/
inductive asn1p_expr where
  | mk (Identifier : Option String) (meta_type : asn1p_metatype)
       (expr_type : asn1p_exprtype) (value : Option asn1p_value)
       (pspecs : List asn1p_expr)

def asn1p_expr.Identifier : asn1p_expr → Option String
  | .mk i _ _ _ _ => i

def asn1p_expr.meta_type : asn1p_expr → asn1p_metatype
  | .mk _ m _ _ _ => m

def asn1p_expr.expr_type : asn1p_expr → asn1p_exprtype
  | .mk _ _ t _ _ => t

def asn1p_expr.value : asn1p_expr → Option asn1p_value
  | .mk _ _ _ v _ => v

def asn1p_expr.pspecs : asn1p_expr → List asn1p_expr
  | .mk _ _ _ _ p => p

mutual

/-- The return value of `asn1print_expr_proto`
(asn1printproto.c:127-329).  Building the proto messages and enums is
a side effect on the output model that never influences the return
value and is elided here; the branch structure and every `return` of
the C dispatch are kept.  `none` models a crash: the `AMT_VALUE`
branches for `ASN_BASIC_INTEGER` and `A1TC_REFERENCE` dereference
`expr->value` unconditionally.  Within the `A1TC_REFERENCE` branch
every `expr->value->type` subcase returns 0; the only `return -1` of
the function is the `AMT_VALUE` default (asn1printproto.c:204-206). -/
def asn1print_expr_proto_ret : asn1p_expr → Option Int
  | .mk ident meta etype value pspecs =>
    if pspecs.isEmpty = false then
      asn1print_expr_proto_ret_specs pspecs
    else if ident.isNone then some 0
    else if etype = .ASN_BASIC_ENUMERATED then some 0
    else if meta = .AMT_VALUE then
      match etype with
      | .ASN_BASIC_INTEGER => (match value with | none => none | some _ => some 0)
      | .A1TC_REFERENCE => (match value with | none => none | some _ => some 0)
      | _ => some (-1)
    else some 0

/-- The specialization loop (asn1printproto.c:136-147): recurse into
each clone in order, returning the first non-zero result, else 0. -/
def asn1print_expr_proto_ret_specs : List asn1p_expr → Option Int
  | [] => some 0
  | c :: cs =>
    match asn1print_expr_proto_ret c with
    | none => none
    | some r => if r ≠ 0 then some r else asn1print_expr_proto_ret_specs cs

end

mutual

/-- The "unhandled `expr_type` in value context" condition: some
expression actually dispatched (specialization clones are processed
instead of their template) carries an identifier, is not
`ASN_BASIC_ENUMERATED` (the enum branch precedes the meta-type
dispatch), has meta type `AMT_VALUE`, and an expression type that is
neither `ASN_BASIC_INTEGER` nor `A1TC_REFERENCE`. -/
def unhandledValueReach : asn1p_expr → Bool
  | .mk ident meta etype _ pspecs =>
    if pspecs.isEmpty = false then unhandledValueReachList pspecs
    else ident.isSome && etype != .ASN_BASIC_ENUMERATED && meta == .AMT_VALUE
         && etype != .ASN_BASIC_INTEGER && etype != .A1TC_REFERENCE

def unhandledValueReachList : List asn1p_expr → Bool
  | [] => false
  | c :: cs => unhandledValueReach c || unhandledValueReachList cs

end

mutual

/-- Inputs on which the dispatch itself dereferences no null pointer:
wherever an `AMT_VALUE` branch for `ASN_BASIC_INTEGER` or
`A1TC_REFERENCE` is reached, the expression's value node is present. -/
def expr_wf : asn1p_expr → Bool
  | .mk ident meta etype value pspecs =>
    if pspecs.isEmpty = false then expr_wf_list pspecs
    else !(ident.isSome && etype != .ASN_BASIC_ENUMERATED && meta == .AMT_VALUE
           && (etype == .ASN_BASIC_INTEGER || etype == .A1TC_REFERENCE) && value.isNone)

def expr_wf_list : List asn1p_expr → Bool
  | [] => true
  | c :: cs => expr_wf c && expr_wf_list cs

end

/-- Specification-side join used to state C4: each child rendered
between `wrapOpen`/`wrapClose`, with `sep` preceding every non-first
child. -/
def sepPieces (sep wrapOpen wrapClose : String) : Bool → List String → String
  | _, [] => ""
  | first, s :: rest =>
    (if first then "" else sep) ++ wrapOpen ++ s ++ wrapClose
      ++ sepPieces sep wrapOpen wrapClose false rest

mutual

/-- Does a constraint tree contain a node of one of the three kinds
that write to the output sink — `ACT_CT_CTDBY` (via `safe_fwrite`),
`ACT_CT_CTNG` or `ACT_CT_PATTERN` (via the external ASN.1 printers)? -/
def hasSinkWriter : asn1p_constraint → Bool
  | .mk t _ _ _ _ elements =>
    t == .ACT_CT_CTDBY || t == .ACT_CT_CTNG || t == .ACT_CT_PATTERN
      || hasSinkWriterList elements

def hasSinkWriterList : List asn1p_constraint → Bool
  | [] => false
  | c :: cs => hasSinkWriter c || hasSinkWriterList cs

end

/-- Does the string begin with two `&` characters?  (The first `&` of a
string is dropped by `toSnakeCaseDup`, so such inputs shrink under
repeated application.) -/
def startsWithDoubleAmp (s : String) : Bool :=
  match s.data with
  | '&' :: '&' :: _ => true
  | _ => false

/-- Characters that the LOWER-mode snake loop copies unchanged at
non-initial positions: not an ASCII capital, not `-`, not `.`. -/
def snakeFixed (c : Char) : Prop :=
  ¬('A' ≤ c ∧ c ≤ 'Z') ∧ c ≠ '-' ∧ c ≠ '.'

/-- `sub` occurs contiguously inside `hay`. -/
def strContains (hay sub : String) : Prop :=
  ∃ pre post, hay = pre ++ sub ++ post

/-! ## Shared lemmas -/

theorem enum_def_lines_snd (nUc : String) (flags : apflags) (level : Nat) :
    ∀ (defs : List proto_enum_def) (ctr : Nat),
      (enum_def_lines nUc defs ctr flags level).map (·.2) = enum_def_values defs ctr := by
  intro defs
  induction defs with
  | nil => intro ctr; rfl
  | cons d ds ih =>
    intro ctr
    by_cases h : d.index < 0
    · simp [enum_def_lines, enum_def_values, h, ih]
    · simp [enum_def_lines, enum_def_values, h, ih]

theorem zero_mem_enum_def_values :
    ∀ (defs : List proto_enum_def) (ctr : Nat), hasEnumZero defs = true →
      (0 : Int) ∈ enum_def_values defs ctr := by
  intro defs
  induction defs with
  | nil => intro ctr h; simp [hasEnumZero] at h
  | cons d ds ih =>
    intro ctr h
    by_cases hz : d.index = 0
    · have hneg : ¬d.index < 0 := by omega
      simp [enum_def_values, hneg, hz]
    · have htail : hasEnumZero ds = true := by
        simp [hasEnumZero] at h ⊢
        rcases h with h | h
        · exact absurd h hz
        · exact h
      by_cases hn : d.index < 0
      · simp [enum_def_values, hn]
        exact Or.inr (ih (ctr+1) htail)
      · simp [enum_def_values, hn]
        exact Or.inr (ih ctr htail)

/-! ## Claims -/

/-- C1, counterexample: for an enum whose single lowered entry has no
explicit index, the emitter prints both the auto-generated
`<ENUM>_UNDEFINED = 0` entry and the entry itself with counter value 0,
so two emitted entries carry the value 0 — not exactly one. -/
theorem C1_enum_zero_counterexample :
    (enumEmittedValues [{ name := "a", index := -1 }]).count 0 = 2
    ∧ (enumEmittedValues [{ name := "a", index := -1 }]).count 0 ≠ 1 := by decide

/-- C1, amended: every emitted enum has AT LEAST one entry with value 0:
when no lowered entry carries an explicit index 0, the auto-generated
`<ENUM>_UNDEFINED = 0` entry is inserted first; but the running counter
over non-explicit entries starts at 0, so another emitted entry may
receive value 0 as well. -/
theorem C1_enum_zero_amended (e : proto_enum) (flags : apflags) (level : Nat) :
    (enumEmittedPairs e flags level).map (·.2) = enumEmittedValues e.defs
    ∧ (0 : Int) ∈ enumEmittedValues e.defs
    ∧ (hasEnumZero e.defs = false →
        (enumEmittedPairs e flags level).head? =
          some (indentStr flags (level+1) ++ toSnakeCaseDup e.name SNAKECASE_UPPER
            ++ "_UNDEFINED = 0; // auto generated\n", 0)) := by
  refine ⟨?_, ?_, ?_⟩
  · unfold enumEmittedPairs enumEmittedValues
    by_cases hz : hasEnumZero e.defs <;> simp [hz, enum_def_lines_snd]
  · unfold enumEmittedValues
    by_cases hz : hasEnumZero e.defs
    · simp [hz]
      exact zero_mem_enum_def_values e.defs 0 hz
    · simp [hz]
  · intro hz
    unfold enumEmittedPairs
    simp [hz]

/-- C1, witness: the amended theorem at a concrete enum (single entry
with explicit index 1): value 0 is emitted and the `UNDEFINED` line
comes first. -/
theorem C1_enum_zero_witness :
    (0 : Int) ∈ enumEmittedValues [{ name := "red", index := 1 }]
    ∧ (enumEmittedPairs { name := "Color", defs := [{ name := "red", index := 1 }] } {} 0).head?
        = some ("    COLOR_UNDEFINED = 0; // auto generated\n", 0) := by
  have h := C1_enum_zero_amended
    { name := "Color", defs := [{ name := "red", index := 1 }] } {} 0
  refine ⟨h.2.1, ?_⟩
  rw [h.2.2 (by decide)]
  decide

/-- C2, counterexample: the casing functions do NOT render `e2AP-PDU`
as the triple claimed (`E2apPdu`, `e2_ap_pdu`, `E2_AP_PDU`): the
PascalCase result keeps the `A` of `AP` upper-case, and the upper-snake
conversion inserts `_` before every internal uppercase letter. -/
theorem C2_casing_counterexample :
    ¬(toPascalCaseDup "e2AP-PDU" = "E2apPdu"
      ∧ toSnakeCaseDup "e2AP-PDU" SNAKECASE_LOWER = "e2_ap_pdu"
      ∧ toSnakeCaseDup "e2AP-PDU" SNAKECASE_UPPER = "E2_AP_PDU") := by decide

/-- C2, amended: the identifier `e2AP-PDU` is rendered `E2ApPdu` in
PascalCase, `e2_ap_pdu` in snake_lower, and `E2_A_P__P_D_U` in
snake_upper. -/
theorem C2_casing_amended :
    toPascalCaseDup "e2AP-PDU" = "E2ApPdu"
    ∧ toSnakeCaseDup "e2AP-PDU" SNAKECASE_LOWER = "e2_ap_pdu"
    ∧ toSnakeCaseDup "e2AP-PDU" SNAKECASE_UPPER = "E2_A_P__P_D_U" := by decide

/-- C3 (code bug): for a STRING value with no embedded quote the
printer emits only the FIRST character between the quotes (the
`else` branch formats `%c` of `*p` once instead of copying the whole
buffer), so `abc` prints as `"a"`, not `"abc"`; the quote-masking
branch (taken when a `"` is embedded) does copy every character with
quotes doubled. -/
theorem C3_string_print_drops_tail :
    proto_value_print (some (.ATV_STRING "abc")) {} = some "\"a\""
    ∧ proto_value_print (some (.ATV_STRING "a\"b")) {} = some "\"a\"\"b\""
    ∧ ("\"a\"" : String) ≠ "\"abc\"" := ⟨rfl, rfl, by decide⟩

theorem ca_loop_clean (t : act_type) (sep : String)
    (hsep : symtable[ca_symno t]? = some sep) (hns : t ≠ .ACT_CA_SET)
    (flags : apflags) (ex ev : String) :
    ∀ (els : List asn1p_constraint) (ss : List String) (first : Bool),
      els.map (fun c => proto_constraint_print c flags ex ev)
        = ss.map (fun s => ((some s : Option String), ("" : String))) →
      ca_loop t els first flags ex ev
        = (some (sepPieces sep (if t = .ACT_CA_CRC then "\x7b" else "")
                  (if t = .ACT_CA_CRC then "\x7d" else "") first ss), "") := by
  intro els
  induction els with
  | nil =>
    intro ss first h
    have hss : ss = [] := by cases ss <;> simp_all
    subst hss
    rfl
  | cons e es ih =>
    intro ss first h
    cases ss with
    | nil => simp at h
    | cons s ss' =>
      simp only [List.map_cons, List.cons.injEq] at h
      obtain ⟨he, hrest⟩ := h
      have hin := ih ss' false hrest
      cases first <;>
        simp [ca_loop, hsep, he, hin, hns, sepPieces, String.append_assoc]

/-- C4, counterexample: a UNION node with two children rendering `1`
and `2` prints `1,2` — the separator the code uses for UNION is `,`,
not the empty string the claim assigns to it. -/
theorem C4_union_comma_counterexample :
    proto_constraint_print
      (.mk .ACT_CA_UNI none none none none
        [.mk .ACT_EL_VALUE (some (.ATV_INTEGER 1)) none none none [],
         .mk .ACT_EL_VALUE (some (.ATV_INTEGER 2)) none none none []]) {} "" ""
      = (some "1,2", "")
    ∧ ("1,2" : String) ≠ "12" := ⟨rfl, by decide⟩

/-- C4, amended: for children that print cleanly, the separators the
fall-through `symno` chain actually selects are: UNION `","`,
INTERSECTION `" ^ "`, EXCEPT `" EXCEPT "`, CSV the empty string, CRC
`"("` with each child wrapped in braces; for SET (with at least two
children) the separator index is past the end of `symtable` — an
out-of-bounds read, modelled as an abort — while its `"} "` goes after
every child but the last. -/
theorem C4_algebraic_separators_amended (flags : apflags) (ex ev : String)
    (els : List asn1p_constraint) (ss : List String)
    (h : els.map (fun c => proto_constraint_print c flags ex ev)
          = ss.map (fun s => ((some s : Option String), ("" : String)))) :
    proto_constraint_print (.mk .ACT_CA_UNI none none none none els) flags ex ev
      = (some (sepPieces "," "" "" true ss), "")
    ∧ proto_constraint_print (.mk .ACT_CA_INT none none none none els) flags ex ev
      = (some (sepPieces " ^ " "" "" true ss), "")
    ∧ proto_constraint_print (.mk .ACT_CA_EXC none none none none els) flags ex ev
      = (some (sepPieces " EXCEPT " "" "" true ss), "")
    ∧ proto_constraint_print (.mk .ACT_CA_CSV none none none none els) flags ex ev
      = (some (sepPieces "" "" "" true ss), "")
    ∧ proto_constraint_print (.mk .ACT_CA_CRC none none none none els) flags ex ev
      = (some (sepPieces "(" "\x7b" "\x7d" true ss), "")
    ∧ (2 ≤ els.length →
        proto_constraint_print (.mk .ACT_CA_SET none none none none els) flags ex ev
          = (none, "")) := by
  refine ⟨?_, ?_, ?_, ?_, ?_, ?_⟩
  · have hl := ca_loop_clean .ACT_CA_UNI "," rfl (by decide) flags ex ev els ss true h
    simpa [proto_constraint_print] using hl
  · have hl := ca_loop_clean .ACT_CA_INT " ^ " rfl (by decide) flags ex ev els ss true h
    simpa [proto_constraint_print] using hl
  · have hl := ca_loop_clean .ACT_CA_EXC " EXCEPT " rfl (by decide) flags ex ev els ss true h
    simpa [proto_constraint_print] using hl
  · have hl := ca_loop_clean .ACT_CA_CSV "" rfl (by decide) flags ex ev els ss true h
    simpa [proto_constraint_print] using hl
  · have hl := ca_loop_clean .ACT_CA_CRC "(" rfl (by decide) flags ex ev els ss true h
    simpa [proto_constraint_print] using hl
  · intro hlen
    cases els with
    | nil => simp at hlen
    | cons e1 tl =>
      cases tl with
      | nil => simp at hlen
      | cons e2 erest =>
        cases ss with
        | nil => simp at h
        | cons s1 ss1 =>
          cases ss1 with
          | nil => simp at h
          | cons s2 ss2 =>
            simp only [List.map_cons, List.cons.injEq] at h
            obtain ⟨he1, -⟩ := h
            simp [proto_constraint_print, ca_loop, he1, symtable, ca_symno]

/-- C4, witness: the amended theorem at a CRC node with children `1`
and `2`: each child is brace-wrapped and the separator is `(`. -/
theorem C4_algebraic_separators_witness :
    proto_constraint_print
      (.mk .ACT_CA_CRC none none none none
        [.mk .ACT_EL_VALUE (some (.ATV_INTEGER 1)) none none none [],
         .mk .ACT_EL_VALUE (some (.ATV_INTEGER 2)) none none none []]) {} "" ""
      = (some "\x7b1\x7d(\x7b2\x7d", "") := by
  have h := C4_algebraic_separators_amended {} "" ""
    [.mk .ACT_EL_VALUE (some (.ATV_INTEGER 1)) none none none [],
     .mk .ACT_EL_VALUE (some (.ATV_INTEGER 2)) none none none []] ["1", "2"] rfl
  rw [h.2.2.2.2.1]
  decide

/-- C5 (code bug): `proto_value_print` does NOT render a NOVALUE node
as the empty string and return: the `ATV_NOVALUE` case breaks out of
the switch and then `assert(val->type || !"Unknown")` fails, because
`ATV_NOVALUE`'s tag is 0 — the function aborts instead of returning. -/
theorem C5_value_print_aborts_on_novalue :
    proto_value_print (some .ATV_NOVALUE) {} = none
    ∧ atv_tag .ATV_NOVALUE = 0 := ⟨rfl, rfl⟩

theorem print_entries_go_length (entry : List proto_msg_def) (k : Nat)
    (flags : apflags) (level : Nat) :
    (print_entries_go entry k flags level).length = entry.length := by
  induction entry generalizing k with
  | nil => rfl
  | cons d ds ih => simp [print_entries_go, ih]

theorem print_entries_go_getD (entry : List proto_msg_def) :
    ∀ (k i : Nat) (flags : apflags) (level : Nat), i < entry.length →
      (print_entries_go entry k flags level).getD i ""
        = print_entry (entry.getD i default) (k+i+1) flags level := by
  induction entry with
  | nil => intro k i _ _ h; simp at h
  | cons d ds ih =>
    intro k i flags level h
    cases i with
    | zero => simp [print_entries_go]
    | succ j =>
      have h2 := ih (k+1) j flags level (by simpa using h)
      rw [show k+1+j+1 = k+(j+1)+1 from by omega] at h2
      simpa [print_entries_go] using h2

/-- C7: within one `print_entries` call the fields are numbered
`1, 2, …, n` in model order with no gaps — the emitted line list has
one line per entry, the `i`-th line renders its entry with field number
exactly `i + 1`, and each rendered line carries its number as the
` = <n>` fragment. -/
theorem C7_field_numbers (entry : List proto_msg_def) (flags : apflags) (level : Nat) :
    (print_entries_go entry 0 flags level).length = entry.length
    ∧ (∀ i, i < entry.length →
        (print_entries_go entry 0 flags level).getD i ""
          = print_entry (entry.getD i default) (i+1) flags level)
    ∧ (∀ (d : proto_msg_def) (n : Nat), ∃ pre post,
        print_entry d n flags level = pre ++ (" = " ++ toString n) ++ post) := by
  refine ⟨print_entries_go_length entry 0 flags level, ?_, ?_⟩
  · intro i h
    have h2 := print_entries_go_getD entry 0 i flags level h
    simpa using h2
  · intro d n
    refine ⟨indentStr flags level ++ (if d.repeated then "repeated " else "")
      ++ (if strstr_found PROTOSCALARTYPES.data d.type.data then d.type else toPascalCaseDup d.type)
      ++ " " ++ toSnakeCaseDup d.name SNAKECASE_LOWER,
      (if d.rules ≠ "" then " [(validate.v1.rules)." ++ d.rules ++ "]" else "")
      ++ (if d.comments ≠ "" then "; // " ++ d.comments ++ "\n" else ";\n"), ?_⟩
    simp [print_entry, String.append_assoc]

/-- C7, witness: two concrete entries; the second emitted line is the
second entry rendered with field number 2. -/
theorem C7_field_numbers_witness :
    (print_entries_go [{ name := "alpha", type := "int32" }, { name := "beta", type := "int32" }]
        0 {} 1).getD 1 ""
      = print_entry { name := "beta", type := "int32" } 2 {} 1 := by
  have h := (C7_field_numbers
    [{ name := "alpha", type := "int32" }, { name := "beta", type := "int32" }] {} 1).2.1 1 (by decide)
  simpa using h

theorem hasSinkWriterList_false_mem :
    ∀ (els : List asn1p_constraint), hasSinkWriterList els = false →
      ∀ e ∈ els, hasSinkWriter e = false := by
  intro els
  induction els with
  | nil => intro _ e he; simp at he
  | cons c cs ih =>
    intro h e he
    simp only [hasSinkWriterList, Bool.or_eq_false_iff] at h
    rcases List.mem_cons.mp he with rfl | hm
    · exact h.1
    · exact ih h.2 e hm

theorem cp_subconstraints_sink (acc : String) (els : List asn1p_constraint)
    (flags : apflags) (ex ev : String)
    (hall : ∀ e ∈ els, (proto_constraint_print e flags ex ev).2 = "") :
    (cp_subconstraints acc els flags ex ev).2 = "" := by
  rcases els with _ | ⟨e, _ | ⟨e2, r⟩⟩
  · rfl
  · have he := hall e (by simp)
    rcases hpe : proto_constraint_print e flags ex ev with ⟨os, w⟩
    rw [hpe] at he
    cases os <;> simp [cp_subconstraints, hpe, he]
  · rfl

theorem cp_wcomps_loop_sink :
    ∀ (els : List asn1p_constraint) (first : Bool) (flags : apflags) (ex ev : String),
      (∀ e ∈ els, (proto_constraint_print e flags ex ev).2 = "") →
      (cp_wcomps_loop els first flags ex ev).2 = "" := by
  intro els
  induction els with
  | nil => intro first flags ex ev _; rfl
  | cons e es ih =>
    intro first flags ex ev hall
    have he := hall e (by simp)
    have hrest := ih false flags ex ev (fun x hx => hall x (by simp [hx]))
    rcases hpe : proto_constraint_print e flags ex ev with ⟨os, w⟩
    rcases hre : cp_wcomps_loop es false flags ex ev with ⟨os2, w2⟩
    rw [hpe] at he
    rw [hre] at hrest
    simp only [] at he hrest
    cases os <;> cases os2 <;> simp [cp_wcomps_loop, hpe, hre, he, hrest]

theorem ca_loop_sink :
    ∀ (t : act_type) (els : List asn1p_constraint) (first : Bool)
      (flags : apflags) (ex ev : String),
      (∀ e ∈ els, (proto_constraint_print e flags ex ev).2 = "") →
      (ca_loop t els first flags ex ev).2 = "" := by
  intro t els
  induction els with
  | nil => intro first flags ex ev _; rfl
  | cons e es ih =>
    intro first flags ex ev hall
    have he := hall e (by simp)
    have hrest := ih false flags ex ev (fun x hx => hall x (by simp [hx]))
    rcases hpe : proto_constraint_print e flags ex ev with ⟨os, w⟩
    rcases hre : ca_loop t es false flags ex ev with ⟨os2, w2⟩
    rw [hpe] at he
    rw [hre] at hrest
    simp only [] at he hrest
    cases first
    · rcases hs : symtable[ca_symno t]? with _ | sep <;>
        cases os <;> cases os2 <;> simp [ca_loop, hs, hpe, hre, he, hrest]
    · cases os <;> cases os2 <;> simp [ca_loop, hpe, hre, he, hrest]

theorem constraint_sink_aux :
    ∀ (n : Nat) (ct : asn1p_constraint), sizeOf ct < n →
      ∀ (flags : apflags) (ex ev : String), hasSinkWriter ct = false →
        (proto_constraint_print ct flags ex ev).2 = "" := by
  intro n
  induction n with
  | zero => intro ct h; omega
  | succ n ih =>
    rintro ⟨t, value, cst, rs, rst, els⟩ hlt flags ex ev hns
    simp only [hasSinkWriter, Bool.or_eq_false_iff, beq_eq_false_iff_ne, ne_eq] at hns
    obtain ⟨⟨⟨ht1, ht2⟩, ht3⟩, hlist⟩ := hns
    have hall : ∀ e ∈ els, (proto_constraint_print e flags ex ev).2 = "" := by
      intro e he
      apply ih e ?_ flags ex ev (hasSinkWriterList_false_mem els hlist e he)
      have h1 : sizeOf e < sizeOf els := List.sizeOf_lt_of_mem he
      have h2 : sizeOf els < sizeOf (asn1p_constraint.mk t value cst rs rst els) := by
        simp [asn1p_constraint.mk.sizeOf_spec]
      omega
    cases t with
    | ACT_INVALID => rfl
    | ACT_EL_TYPE =>
      rcases hv : proto_value_print cst flags with _ | v
      · simp [proto_constraint_print, hv]
      · simp only [proto_constraint_print, hv]
        exact cp_subconstraints_sink v els flags ex ev hall
    | ACT_EL_VALUE =>
      rcases hv : proto_value_print value flags with _ | v
      · simp [proto_constraint_print, hv]
      · by_cases hsv : flags.string_value
        · simp [proto_constraint_print, hv, hsv]
        · simp only [proto_constraint_print, hv, hsv, Bool.false_eq_true, if_false]
          exact cp_subconstraints_sink v els flags ex ev hall
    | ACT_EL_RANGE =>
      rcases hv1 : proto_value_print rs flags with _ | v1 <;>
        rcases hv2 : proto_value_print rst flags with _ | v2 <;>
          simp [proto_constraint_print, hv1, hv2] <;> split <;> simp
    | ACT_EL_LLRANGE =>
      rcases hv1 : proto_value_print rs flags with _ | v1 <;>
        rcases hv2 : proto_value_print rst flags with _ | v2 <;>
          simp [proto_constraint_print, hv1, hv2] <;> split <;> simp
    | ACT_EL_RLRANGE =>
      rcases hv1 : proto_value_print rs flags with _ | v1 <;>
        rcases hv2 : proto_value_print rst flags with _ | v2 <;>
          simp [proto_constraint_print, hv1, hv2] <;> split <;> simp
    | ACT_EL_ULRANGE =>
      rcases hv1 : proto_value_print rs flags with _ | v1 <;>
        rcases hv2 : proto_value_print rst flags with _ | v2 <;>
          simp [proto_constraint_print, hv1, hv2] <;> split <;> simp
    | ACT_EL_EXT => rfl
    | ACT_CT_SIZE =>
      rcases els with _ | ⟨e, _ | ⟨e2, r⟩⟩
      · rfl
      · have he := hall e (by simp)
        rcases hpe : proto_constraint_print e flags ex ev with ⟨os, w⟩
        rw [hpe] at he
        cases os <;> simp [proto_constraint_print, hpe, he]
      · rfl
    | ACT_CT_FROM =>
      rcases els with _ | ⟨e, _ | ⟨e2, r⟩⟩
      · rfl
      · have he := hall e (by simp)
        rcases hpe : proto_constraint_print e flags ex ev with ⟨os, w⟩
        rw [hpe] at he
        cases os <;> simp [proto_constraint_print, hpe, he]
      · rfl
    | ACT_CT_WCOMP =>
      rcases els with _ | ⟨e, _ | ⟨e2, r⟩⟩
      · rfl
      · simp only [proto_constraint_print]
        exact cp_subconstraints_sink "WITH COMPONENT" [e] flags ex ev hall
      · rfl
    | ACT_CT_WCOMPS =>
      have hw := cp_wcomps_loop_sink els true flags ex ev hall
      rcases hre : cp_wcomps_loop els true flags ex ev with ⟨os, w⟩
      rw [hre] at hw
      cases os <;> simp [proto_constraint_print, hre, hw]
    | ACT_CT_CTDBY => exact absurd rfl ht1
    | ACT_CT_CTNG => exact absurd rfl ht2
    | ACT_CT_PATTERN => exact absurd rfl ht3
    | ACT_CA_SET =>
      simp only [proto_constraint_print]
      exact ca_loop_sink .ACT_CA_SET els true flags ex ev hall
    | ACT_CA_CRC =>
      simp only [proto_constraint_print]
      exact ca_loop_sink .ACT_CA_CRC els true flags ex ev hall
    | ACT_CA_CSV =>
      simp only [proto_constraint_print]
      exact ca_loop_sink .ACT_CA_CSV els true flags ex ev hall
    | ACT_CA_UNI =>
      simp only [proto_constraint_print]
      exact ca_loop_sink .ACT_CA_UNI els true flags ex ev hall
    | ACT_CA_INT =>
      simp only [proto_constraint_print]
      exact ca_loop_sink .ACT_CA_INT els true flags ex ev hall
    | ACT_CA_EXC =>
      simp only [proto_constraint_print]
      exact ca_loop_sink .ACT_CA_EXC els true flags ex ev hall
    | ACT_CA_AEX =>
      rcases els with _ | ⟨e, _ | ⟨e2, r⟩⟩
      · rfl
      · simp only [proto_constraint_print]
        exact cp_subconstraints_sink "ALL EXCEPT" [e] flags ex ev hall
      · rfl

/-- C6, counterexample: `proto_constraint_print` is NOT sink-pure on a
`CONSTRAINED BY` node — the unparsed constraint text goes to the output
sink through `safe_fwrite` (the returned string holds only the keyword). -/
theorem C6_ctdby_writes_sink_counterexample :
    proto_constraint_print
      (.mk .ACT_CT_CTDBY (some (.ATV_UNPARSED "xyz")) none none none []) {} "" ""
      = (some "CONSTRAINED BY ", "xyz")
    ∧ ("xyz" : String) ≠ "" := ⟨rfl, by decide⟩

/-- C6, amended: `proto_constraint_print` writes nothing to the output
sink for every constraint tree that contains no `CONSTRAINED BY`,
`CONTAINING` or `PATTERN` node; those three kinds do write to the sink
(`safe_fwrite` of the unparsed text, resp. the external ASN.1
printers). -/
theorem C6_constraint_print_sink_amended (ct : asn1p_constraint) (flags : apflags)
    (extExprOut extValueOut : String) (h : hasSinkWriter ct = false) :
    (proto_constraint_print ct flags extExprOut extValueOut).2 = "" :=
  constraint_sink_aux (sizeOf ct + 1) ct (by omega) flags extExprOut extValueOut h

theorem expr_wf_list_mem :
    ∀ (l : List asn1p_expr), expr_wf_list l = true → ∀ e ∈ l, expr_wf e = true := by
  intro l
  induction l with
  | nil => intro _ e he; simp at he
  | cons c cs ih =>
    intro h e he
    simp only [expr_wf_list, Bool.and_eq_true] at h
    rcases List.mem_cons.mp he with rfl | hm
    · exact h.1
    · exact ih h.2 e hm

theorem expr_ret_specs_aux :
    ∀ (l : List asn1p_expr),
      (∀ e ∈ l, expr_wf e = true →
        asn1print_expr_proto_ret e = some (if unhandledValueReach e then -1 else 0)) →
      expr_wf_list l = true →
      asn1print_expr_proto_ret_specs l
        = some (if unhandledValueReachList l then -1 else 0) := by
  intro l
  induction l with
  | nil => intro _ _; rfl
  | cons c cs ih =>
    intro hall hwf
    simp only [expr_wf_list, Bool.and_eq_true] at hwf
    have hc := hall c (by simp) hwf.1
    have hcs := ih (fun e he hw => hall e (by simp [he]) hw) hwf.2
    by_cases hr : unhandledValueReach c
    · simp [asn1print_expr_proto_ret_specs, hc, hr, unhandledValueReachList]
    · simp [asn1print_expr_proto_ret_specs, hc, hr, unhandledValueReachList, hcs]

theorem expr_ret_aux :
    ∀ (n : Nat) (e : asn1p_expr), sizeOf e < n → expr_wf e = true →
      asn1print_expr_proto_ret e = some (if unhandledValueReach e then -1 else 0) := by
  intro n
  induction n with
  | zero => intro e h; omega
  | succ n ih =>
    rintro ⟨ident, meta, etype, value, pspecs⟩ hlt hwf
    by_cases hps : pspecs.isEmpty
    · have hnil : pspecs = [] := by simpa using hps
      subst hnil
      cases ident with
      | none => simp [asn1print_expr_proto_ret, unhandledValueReach]
      | some id =>
        by_cases het : etype = .ASN_BASIC_ENUMERATED
        · subst het
          simp [asn1print_expr_proto_ret, unhandledValueReach]
        · by_cases hm : meta = .AMT_VALUE
          · subst hm
            cases etype <;> rcases value with _ | v <;>
              simp_all [asn1print_expr_proto_ret, unhandledValueReach, expr_wf]
          · simp [asn1print_expr_proto_ret, unhandledValueReach, het, hm]
    · have hf : pspecs.isEmpty = false := by simpa using hps
      have hall : ∀ e ∈ pspecs, expr_wf e = true →
          asn1print_expr_proto_ret e = some (if unhandledValueReach e then -1 else 0) := by
        intro e he hw
        apply ih e ?_ hw
        have h1 : sizeOf e < sizeOf pspecs := List.sizeOf_lt_of_mem he
        have h2 : sizeOf pspecs < sizeOf (asn1p_expr.mk ident meta etype value pspecs) := by
          simp [asn1p_expr.mk.sizeOf_spec]
        omega
      have hwl : expr_wf_list pspecs = true := by
        simpa [expr_wf, hf] using hwf
      simp [asn1print_expr_proto_ret, unhandledValueReach, hf]
      exact expr_ret_specs_aux pspecs hall hwl

/-- C8, counterexample: an expression in value context (meta-type
`AMT_VALUE`) whose `expr_type` is `ASN_BASIC_ENUMERATED` — neither
INTEGER nor REFERENCE — is captured by the enumeration branch, which
the dispatch checks BEFORE the meta-type, and the lowerer returns 0,
not non-zero as the claim's iff requires. -/
theorem C8_lower_return_counterexample :
    asn1print_expr_proto_ret (.mk (some "v") .AMT_VALUE .ASN_BASIC_ENUMERATED none []) = some 0
    ∧ (asn1p_expr.mk (some "v") .AMT_VALUE .ASN_BASIC_ENUMERATED none []).meta_type = .AMT_VALUE
    ∧ (asn1p_expr.mk (some "v") .AMT_VALUE .ASN_BASIC_ENUMERATED none []).expr_type
        ≠ .ASN_BASIC_INTEGER
    ∧ (asn1p_expr.mk (some "v") .AMT_VALUE .ASN_BASIC_ENUMERATED none []).expr_type
        ≠ .A1TC_REFERENCE :=
  ⟨rfl, rfl, by decide, by decide⟩

/-- C8, amended: on every input whose reached dispatch branches
dereference no null value pointer, the lowerer returns -1 exactly when
it reaches (possibly through specialization clones) an
identifier-bearing expression in value context whose `expr_type` is
none of ENUMERATED, INTEGER, REFERENCE, and returns 0 for every other
such input. -/
theorem C8_lower_return_amended (e : asn1p_expr) (h : expr_wf e = true) :
    asn1print_expr_proto_ret e = some (if unhandledValueReach e then -1 else 0) :=
  expr_ret_aux (sizeOf e + 1) e (by omega) h

/-- C8, witness: the amended theorem at a value-context BOOLEAN
expression — the unhandled-in-value-context case — returning -1. -/
theorem C8_lower_return_witness :
    asn1print_expr_proto_ret (.mk (some "x") .AMT_VALUE .ASN_BASIC_BOOLEAN none [])
      = some (-1) := by
  have h := C8_lower_return_amended
    (.mk (some "x") .AMT_VALUE .ASN_BASIC_BOOLEAN none []) (by decide)
  rw [h]
  decide

/-- C6, witness: the amended theorem at a concrete sink-writer-free
tree, with non-empty external-printer text to show none of it leaks. -/
theorem C6_constraint_print_sink_witness :
    (proto_constraint_print
      (.mk .ACT_CA_UNI none none none none
        [.mk .ACT_EL_VALUE (some (.ATV_INTEGER 3)) none none none []]) {} "a" "b").2 = "" :=
  C6_constraint_print_sink_amended
    (.mk .ACT_CA_UNI none none none none
      [.mk .ACT_EL_VALUE (some (.ATV_INTEGER 3)) none none none []]) {} "a" "b" (by decide)

theorem char_le_iff_toNat {a b : Char} : a ≤ b ↔ a.toNat ≤ b.toNat := by
  simp [Char.le_def, UInt32.le_def, BitVec.le_def, Char.toNat, UInt32.toNat]

theorem char_toNat_ofNat_valid (n : Nat) (h : n < 55296) : (Char.ofNat n).toNat = n := by
  rw [Char.ofNat, dif_pos (Or.inl h)]
  simp [Char.ofNatAux, Char.toNat, UInt32.toNat, UInt32.ofNat']

theorem char_toLower_toNat_of_upper {c : Char} (h1 : 'A' ≤ c) (h2 : c ≤ 'Z') :
    (Char.toLower c).toNat = c.toNat + 32 := by
  have hn1 : 65 ≤ c.toNat := char_le_iff_toNat.mp h1
  have hn2 : c.toNat ≤ 90 := char_le_iff_toNat.mp h2
  unfold Char.toLower
  rw [if_pos ⟨hn1, hn2⟩]
  exact char_toNat_ofNat_valid _ (by omega)

theorem snakeGo_lower_cons (a : Char) (as : List Char) (first last : Bool) :
    snakeGo SNAKECASE_LOWER (a :: as) first last =
      if first ∧ a = '&' then snakeGo SNAKECASE_LOWER as false true
      else if ¬first ∧ ('A' ≤ a ∧ a ≤ 'Z') ∧ ¬last then
        '_' :: a.toLower :: snakeGo SNAKECASE_LOWER as false true
      else if 'A' ≤ a ∧ a ≤ 'Z' then a.toLower :: snakeGo SNAKECASE_LOWER as false true
      else if a = '-' ∨ a = '.' then '_' :: snakeGo SNAKECASE_LOWER as false true
      else a :: snakeGo SNAKECASE_LOWER as false false := by
  rw [snakeGo]
  simp only [eq_self_iff_true, true_and, reduceCtorEq, false_and, if_false]

theorem char_ne_of_toNat_ne {a b : Char} (h : a.toNat ≠ b.toNat) : a ≠ b :=
  fun he => h (by rw [he])

theorem snakeFixed_toLower {c : Char} (h1 : 'A' ≤ c) (h2 : c ≤ 'Z') :
    snakeFixed (Char.toLower c) ∧ Char.toLower c ≠ '&' := by
  have ht := char_toLower_toNat_of_upper h1 h2
  have hn1 : 65 ≤ c.toNat := char_le_iff_toNat.mp h1
  have hn2 : c.toNat ≤ 90 := char_le_iff_toNat.mp h2
  refine ⟨⟨?_, ?_, ?_⟩, ?_⟩
  · rintro ⟨ha, hb⟩
    have hb' := char_le_iff_toNat.mp hb
    have hz : ('Z' : Char).toNat = 90 := rfl
    omega
  · apply char_ne_of_toNat_ne
    have hd : ('-' : Char).toNat = 45 := rfl
    omega
  · apply char_ne_of_toNat_ne
    have hd : ('.' : Char).toNat = 46 := rfl
    omega
  · apply char_ne_of_toNat_ne
    have hd : ('&' : Char).toNat = 38 := rfl
    omega

theorem underscore_fixed : snakeFixed '_' := by
  refine ⟨?_, ?_, ?_⟩ <;> decide

theorem cons_ne_of_head_ne {a b : Char} {l1 l2 : List Char} (h : a ≠ b) : a :: l1 ≠ b :: l2 := by
  intro he
  injection he with h1 _
  exact h h1

theorem snakeGo_lower_fixed :
    ∀ (cs : List Char) (first last : Bool) (c : Char),
      c ∈ snakeGo SNAKECASE_LOWER cs first last → snakeFixed c := by
  intro cs
  induction cs with
  | nil => intro first last c h; simp [snakeGo] at h
  | cons a as ih =>
    intro first last c h
    rw [snakeGo_lower_cons] at h
    split at h
    · exact ih _ _ _ h
    · split at h
      · rename_i hc
        rcases List.mem_cons.mp h with rfl | h'
        · exact underscore_fixed
        · rcases List.mem_cons.mp h' with rfl | h''
          · exact (snakeFixed_toLower hc.2.1.1 hc.2.1.2).1
          · exact ih _ _ _ h''
      · split at h
        · rename_i hc
          rcases List.mem_cons.mp h with rfl | h'
          · exact (snakeFixed_toLower hc.1 hc.2).1
          · exact ih _ _ _ h'
        · split at h
          · rcases List.mem_cons.mp h with rfl | h'
            · exact underscore_fixed
            · exact ih _ _ _ h'
          · rename_i hc1 hc2 hc3 hc4
            rcases List.mem_cons.mp h with rfl | h'
            · exact ⟨fun hu => hc3 hu, fun he => hc4 (Or.inl he), fun he => hc4 (Or.inr he)⟩
            · exact ih _ _ _ h'

theorem snakeGo_lower_fixed_id :
    ∀ (cs : List Char) (last : Bool), (∀ c ∈ cs, snakeFixed c) →
      snakeGo SNAKECASE_LOWER cs false last = cs := by
  intro cs
  induction cs with
  | nil => intro last _; rfl
  | cons a as ih =>
    intro last hall
    have ha := hall a (by simp)
    rw [snakeGo_lower_cons]
    rw [if_neg (by simp)]
    rw [if_neg (by rintro ⟨-, hu, -⟩; exact ha.1 hu)]
    rw [if_neg ha.1]
    rw [if_neg (by rintro (he | he); exacts [ha.2.1 he, ha.2.2 he])]
    rw [ih false (fun c hc => hall c (by simp [hc]))]

theorem snakeGo_lower_first_id :
    ∀ (cs : List Char), (∀ c ∈ cs, snakeFixed c) → (∀ ds, cs ≠ '&' :: ds) →
      snakeGo SNAKECASE_LOWER cs true false = cs := by
  intro cs hall hamp
  cases cs with
  | nil => rfl
  | cons a as =>
    have ha := hall a (by simp)
    have hane : a ≠ '&' := fun he => hamp as (by rw [he])
    rw [snakeGo_lower_cons]
    rw [if_neg (by rintro ⟨-, he⟩; exact hane he)]
    rw [if_neg (by rintro ⟨hf, -⟩; exact hf rfl)]
    rw [if_neg ha.1]
    rw [if_neg (by rintro (he | he); exacts [ha.2.1 he, ha.2.2 he])]
    rw [snakeGo_lower_fixed_id as false (fun c hc => hall c (by simp [hc]))]

theorem snakeGo_lower_head_ne_amp (a : Char) (as : List Char) (first last : Bool)
    (ha : a ≠ '&') (ds : List Char) :
    snakeGo SNAKECASE_LOWER (a :: as) first last ≠ '&' :: ds := by
  rw [snakeGo_lower_cons]
  rw [if_neg (by rintro ⟨-, he⟩; exact ha he)]
  split
  · exact cons_ne_of_head_ne (by decide)
  · split
    · rename_i hc2 hc
      exact cons_ne_of_head_ne (snakeFixed_toLower hc.1 hc.2).2
    · split
      · exact cons_ne_of_head_ne (by decide)
      · exact cons_ne_of_head_ne ha

/-- C9, amended: applying `toSnakeCaseDup` with `SNAKECASE_LOWER` twice
equals applying it once for every input string that does not begin with
two `&` characters (the single exception: the loop drops one leading
`&` per application). -/
theorem C9_snake_lower_idem_amended (s : String) (h : startsWithDoubleAmp s = false) :
    toSnakeCaseDup (toSnakeCaseDup s SNAKECASE_LOWER) SNAKECASE_LOWER
      = toSnakeCaseDup s SNAKECASE_LOWER := by
  unfold toSnakeCaseDup
  congr 1
  show snakeGo SNAKECASE_LOWER (snakeGo SNAKECASE_LOWER s.data true false) true false
        = snakeGo SNAKECASE_LOWER s.data true false
  apply snakeGo_lower_first_id _ (fun c hc => snakeGo_lower_fixed s.data true false c hc)
  intro ds
  cases hs : s.data with
  | nil => simp [snakeGo]
  | cons a as =>
    by_cases ha : a = '&'
    · subst ha
      rw [snakeGo_lower_cons, if_pos ⟨rfl, rfl⟩]
      cases as with
      | nil => simp [snakeGo]
      | cons b bs =>
        have hb : b ≠ '&' := by
          intro he
          subst he
          unfold startsWithDoubleAmp at h
          rw [hs] at h
          simp at h
        exact snakeGo_lower_head_ne_amp b bs false true hb ds
    · exact snakeGo_lower_head_ne_amp a as true false ha ds

/-- C9, counterexample: `toSnakeCaseDup` with `SNAKECASE_LOWER` is NOT
idempotent on every input: one leading `&` is dropped per application,
so `&&` maps to `&` and then to the empty string. -/
theorem C9_snake_lower_idem_counterexample :
    toSnakeCaseDup (toSnakeCaseDup "&&" SNAKECASE_LOWER) SNAKECASE_LOWER
      ≠ toSnakeCaseDup "&&" SNAKECASE_LOWER := by decide

/-- C9, witness: the amended idempotence theorem at `e2AP-PDU`. -/
theorem C9_snake_lower_idem_witness :
    toSnakeCaseDup (toSnakeCaseDup "e2AP-PDU" SNAKECASE_LOWER) SNAKECASE_LOWER
      = toSnakeCaseDup "e2AP-PDU" SNAKECASE_LOWER :=
  C9_snake_lower_idem_amended "e2AP-PDU" (by decide)

theorem strContains_self (a : String) : strContains a a :=
  ⟨"", "", by simp⟩

theorem strContains_appL (a : String) {b c : String} (h : strContains b c) :
    strContains (a ++ b) c := by
  obtain ⟨p, q, rfl⟩ := h
  exact ⟨a ++ p, q, by simp [String.append_assoc]⟩

theorem strContains_appR (a : String) {b c : String} (h : strContains b c) :
    strContains (b ++ a) c := by
  obtain ⟨p, q, rfl⟩ := h
  exact ⟨p, q ++ a, by simp [String.append_assoc]⟩

theorem strContains_trans {a b c : String} (h1 : strContains a b) (h2 : strContains b c) :
    strContains a c := by
  obtain ⟨p1, q1, rfl⟩ := h1
  obtain ⟨p2, q2, rfl⟩ := h2
  exact ⟨p1 ++ p2, q2 ++ q1, by simp [String.append_assoc]⟩

theorem strJoin_contains {l : List String} {a : String} (h : a ∈ l) :
    strContains (strJoin l) a := by
  induction l with
  | nil => simp at h
  | cons x xs ih =>
    rcases List.mem_cons.mp h with rfl | hm
    · exact ⟨"", strJoin xs, by simp [strJoin]⟩
    · exact strContains_appL x (ih hm)

theorem print_entries_contains (entry : List proto_msg_def) (flags : apflags) (level : Nat)
    (i : Nat) (h : i < entry.length) :
    strContains (print_entries entry flags level)
      (print_entry (entry.getD i default) (i+1) flags level) := by
  have hl : i < (print_entries_go entry 0 flags level).length := by
    rw [print_entries_go_length]
    exact h
  have hmem : (print_entries_go entry 0 flags level).getD i ""
      ∈ print_entries_go entry 0 flags level := by
    rw [List.getD_eq_getElem _ _ hl]
    exact List.getElem_mem hl
  have hval := print_entries_go_getD entry 0 i flags level h
  rw [hval] at hmem
  rw [show 0+i+1 = i+1 from by omega] at hmem
  exact strJoin_contains hmem

theorem oneof_contains_entry (o : proto_msg_oneof) (flags : apflags) (level : Nat)
    (i : Nat) (h : i < o.entry.length) :
    strContains (proto_print_single_oneof o flags level)
      (print_entry (o.entry.getD i default) (i+1) flags (level+1)) := by
  have h1 := print_entries_contains o.entry flags (level+1) i h
  unfold proto_print_single_oneof
  exact strContains_appR _ (strContains_appR _ (strContains_appL _ h1))

/-- C10: field numbering restarts at 1 inside every oneof,
independently of the enclosing message's direct fields: in the text of
`proto_print_single_msg`, the `i`-th entry of ANY oneof of the message
appears rendered with field number `i + 1` (the position within the
oneof's own entry list), while the `j`-th direct field appears with
number `j + 1` — numbers are positional per field list, not unique
across the message. -/
theorem C10_oneof_numbering_restart (m : proto_msg) (flags : apflags) (level : Nat) :
    (∀ o ∈ m.oneof, ∀ i, i < o.entry.length →
      strContains (proto_print_single_msg m flags level)
        (print_entry (o.entry.getD i default) (i+1) flags (level+2)))
    ∧ (∀ j, j < m.entry.length →
      strContains (proto_print_single_msg m flags level)
        (print_entry (m.entry.getD j default) (j+1) flags (level+1))) := by
  constructor
  · intro o ho i h
    have h1 := oneof_contains_entry o flags (level+1) i h
    have h2 : strContains
        (strJoin (m.oneof.map (fun x => proto_print_single_oneof x flags (level+1))))
        (proto_print_single_oneof o flags (level+1)) :=
      strJoin_contains (List.mem_map_of_mem _ ho)
    have h3 : strContains (proto_print_single_msg m flags level)
        (strJoin (m.oneof.map (fun x => proto_print_single_oneof x flags (level+1)))) := by
      unfold proto_print_single_msg
      exact strContains_appR _ (strContains_appR _ (strContains_appL _ (strContains_self _)))
    exact strContains_trans (strContains_trans h3 h2) h1
  · intro j h
    have h1 := print_entries_contains m.entry flags (level+1) j h
    have h3 : strContains (proto_print_single_msg m flags level)
        (print_entries m.entry flags (level+1)) := by
      unfold proto_print_single_msg
      exact strContains_appR _ (strContains_appR _ (strContains_appR _
        (strContains_appL _ (strContains_self _))))
    exact strContains_trans h3 h1

/-- C10, witness: a concrete message with two direct fields and a
two-entry oneof — the oneof's first entry carries number 1 again. -/
theorem C10_oneof_numbering_restart_witness :
    strContains
      (proto_print_single_msg
        { name := "M",
          entry := [{ name := "a", type := "int32" }, { name := "b", type := "int32" }],
          oneof := [{ name := "ch",
                      entry := [{ name := "x", type := "int32" },
                                { name := "y", type := "int32" }] }] } {} 0)
      (print_entry { name := "x", type := "int32" } 1 {} 2) := by
  have h := (C10_oneof_numbering_restart
    { name := "M",
      entry := [{ name := "a", type := "int32" }, { name := "b", type := "int32" }],
      oneof := [{ name := "ch",
                  entry := [{ name := "x", type := "int32" },
                            { name := "y", type := "int32" }] }] } {} 0).1
    { name := "ch",
      entry := [{ name := "x", type := "int32" }, { name := "y", type := "int32" }] }
    (by simp) 0 (by decide)
  simpa using h

end Asn1Proto
